import Mathlib

/-!
Shallow embedding of the retrieval core of the `wh_scraper` package:
`vectorization.py` (token-aware chunking, batched embeddings), `models.py`
(chunk upserts and ANN-style search over the store), `search.py` (simple and
LLM-verified search, defensive parsing of judge replies), `web/app.py`
(result sorting and similarity clamping) and `config.py` (settings object).

External collaborators are modelled as explicit oracle parameters:
the tiktoken encoder/decoder (`decode : List Nat → String` over abstract token
ids), the OpenAI embeddings endpoint (`provider : List String → List (List ℚ)`,
the list of `response.data[i].embedding` values), `json.loads`
(`decode : String → Option JValue`), the chat completion call
(`invokeOn`, the reply text for a prompt built from a query and a batch), and
the pgvector `<=>` operator (`dist`). Machine floats are modelled as ℚ: none of
the verified properties depend on rounding. Python exceptions are modelled with
`Except PyError`.
-/

set_option autoImplicit false

namespace WhScraper

universe u

deriving instance DecidableEq for Except

/-- Drop leading whitespace characters from a character list. -/
def dropLeadingWs : List Char → List Char
  | [] => []
  | c :: cs => if c.isWhitespace then dropLeadingWs cs else c :: cs

/-- Python `str.strip()` with no argument: drop leading and trailing
whitespace. -/
def pyStrip (s : String) : String :=
  String.mk ((dropLeadingWs ((dropLeadingWs s.data).reverse)).reverse)

/-- Kinds of Python exceptions raised by the embedded code paths. -/
inductive PyError where
  | valueError (msg : String)
  | typeError (msg : String)
  | runtimeError (msg : String)
  | attributeError (name : String)
  | indexError (msg : String)
  deriving DecidableEq

/-! ### TextChunker (vectorization.py lines 27-80)

`TextChunker.__init__` validates `0 < max_tokens`, `0 ≤ overlap_tokens` and
`overlap_tokens < max_tokens`. `chunk_text` strips the text, encodes it to
token ids, returns the stripped text whole if it fits, and otherwise walks
overlapping windows over the token id list. We embed the window loop over the
token id list directly; `decode` is the tiktoken decoder oracle. -/

/-- The next-start computation of the window loop (vectorization.py lines
70-78): `next_start = end - overlap`, forced to `end` when it would not
advance (`next_start >= end` or `next_start <= start`); with zero overlap the
next window simply starts at `end`. -/
def nextStart (overlap start e : ℕ) : ℕ :=
  if overlap ≠ 0 then
    let ns := e - overlap
    let ns2 := if e ≤ ns then e else ns
    if ns2 ≤ start then e else ns2
  else e

/-- The `(start, end)` window positions produced by the while loop of
`TextChunker.chunk_text` (vectorization.py lines 58-78) over a token list of
length `total`, beginning at `start`. The loop body always computes the window
`[start, min (start + max_tokens) total)`, breaks when the window ends at the
text end, and otherwise advances to `nextStart`. Termination (the subject of
claim C5) is exactly the well-foundedness argument discharged below: it needs
only `0 < maxT`, which `TextChunker.__init__` validates. -/
def chunkWindows (maxT overlap : ℕ) (hmax : 0 < maxT) (total : ℕ) : ℕ → List (ℕ × ℕ)
  | start =>
    if h : start < total then
      let e := min (start + maxT) total
      if e = total then [(start, e)]
      else (start, e) :: chunkWindows maxT overlap hmax total (nextStart overlap start e)
    else []
  termination_by start => total - start
  decreasing_by
    simp only [nextStart]
    split_ifs <;> omega

/-- The token slice `token_ids[start:end]` of a window. -/
def windowSlice (tokens : List ℕ) (w : ℕ × ℕ) : List ℕ :=
  (tokens.drop w.1).take (w.2 - w.1)

/-- Embeds `TextChunker.chunk_text` (vectorization.py lines 48-80). `stripped` is
`text.strip()` and `tokens` is `encoding.encode(stripped)`; `decode` is the
tiktoken decoder. Empty stripped text yields no chunks; a text that fits in
one window is returned whole; otherwise each window is decoded, stripped, and
dropped when blank. -/
def chunk_text (decode : List ℕ → String) (maxT overlap : ℕ) (hmax : 0 < maxT)
    (stripped : String) (tokens : List ℕ) : List String :=
  if stripped = "" then []
  else if tokens.length ≤ maxT then [stripped]
  else
    (chunkWindows maxT overlap hmax tokens.length 0).filterMap (fun w =>
      let t := pyStrip (decode (windowSlice tokens w))
      if t = "" then none else some t)

/-- The round-trip operator of claim C6: the first window's tokens followed by
every later window's tokens after its `overlap`-token prefix (the defined
overlap with its predecessor). -/
def reconstruct (tokens : List ℕ) (overlap : ℕ) : List (ℕ × ℕ) → List ℕ
  | [] => []
  | w :: ws =>
    windowSlice tokens w ++
      (ws.map (fun w2 => (windowSlice tokens w2).drop overlap)).flatten

/-! ### OpenAIEmbeddingClient (vectorization.py lines 83-124) -/

/-- vectorization.py line 18: the embedding batch dataclass. -/
structure EmbeddingBatch where
  model : String
  dimensions : ℕ
  vectors : List (List ℚ)
  deriving DecidableEq

/-- The successive slices `l[start:start+bs]` for `start = 0, bs, 2*bs, ...`,
as produced by iterating `range(0, len(l), bs)` and slicing — the batching
scheme shared by `OpenAIEmbeddingClient.embed_in_batches` (vectorization.py
line 116) and `LLMRelevanceJudge.judge` (search.py line 290). Faithful for
`1 ≤ bs` (Python raises ValueError on a zero step, which neither caller can
produce). -/
def batchSlices {α : Type u} (bs : ℕ) : List α → List (List α)
  | [] => []
  | x :: xs => (x :: xs).take bs :: batchSlices bs (xs.drop (bs - 1))
  termination_by l => l.length
  decreasing_by
    simp only [List.length_drop, List.length_cons]
    omega

/-- Embeds `OpenAIEmbeddingClient.embed_texts` (vectorization.py lines 101-108).
`provider texts` is the ordered list of `response.data[i].embedding` vectors.
Empty input short-circuits to an empty batch; otherwise `dimensions` is read
from the first returned vector (`response.data[0]`, an IndexError when the
provider returns no vectors). No count or dimension check is performed. -/
def embed_texts (provider : List String → List (List ℚ)) (model : String)
    (texts : List String) : Except PyError EmbeddingBatch :=
  match texts with
  | [] => Except.ok ⟨model, 0, []⟩
  | t :: ts =>
    match provider (t :: ts) with
    | [] => Except.error (PyError.indexError "list index out of range")
    | v0 :: rest => Except.ok ⟨model, v0.length, v0 :: rest⟩

/-- The loop body of `embed_in_batches` (vectorization.py lines 116-121):
per slice, call `embed_texts`, overwrite `dimensions` with the slice's result
and extend the accumulated vectors. A provider failure propagates (there is
no handler in `embed_in_batches`). -/
def embedLoop (provider : List String → List (List ℚ)) (model : String) :
    List (List String) → ℕ → List (List ℚ) → Except PyError (ℕ × List (List ℚ))
  | [], dims, acc => Except.ok (dims, acc)
  | b :: rest, dims, acc =>
    match embed_texts provider model b with
    | Except.error e => Except.error e
    | Except.ok br => embedLoop provider model rest br.dimensions (acc ++ br.vectors)

/-- Embeds `OpenAIEmbeddingClient.embed_in_batches` (vectorization.py lines 110-123).
`dims` starts at 0 and ends as the last processed slice's dimensions. -/
def embed_in_batches (provider : List String → List (List ℚ)) (model : String)
    (batchSize : ℕ) (texts : List String) : Except PyError EmbeddingBatch :=
  match texts with
  | [] => Except.ok ⟨model, 0, []⟩
  | _ :: _ =>
    match embedLoop provider model (batchSlices batchSize texts) 0 [] with
    | Except.error e => Except.error e
    | Except.ok (dims, vectors) => Except.ok ⟨model, dims, vectors⟩

/-- The `dimensions` value that survives `embed_in_batches`' loop when the
provider answers every slice pointwise with `f`: the initial value for no
slices, else the first-vector length of the last slice. -/
def lastDims (f : String → List ℚ) : List (List String) → ℕ → ℕ
  | [], dims => dims
  | b :: rest, _ => lastDims f rest (f (b.headD "")).length

/-- A per-text embedding answer whose dimensionality depends on the text:
2 for `"a"`, 3 otherwise — an inter-batch dimension mismatch once the texts
land in different batches. -/
def dim_by_text : String → List ℚ :=
  fun s => if s = "a" then [0, 0] else [0, 0, 0]

/-- A well-behaved (one vector per input text) provider built on
`dim_by_text`. -/
def dim_provider : List String → List (List ℚ) :=
  fun ts => ts.map dim_by_text

/-! ### The store (models.py)

A row of `wh.document_chunks` and a row of `wh.documents`, with NULL columns
as `Option`. Publish dates are proleptic-Gregorian day ordinals (ℕ), so that
Python's `date` total order and `date.min` (ordinal 0 here) are preserved. -/

/-- A `wh.document_chunks` row (the columns the embedded code touches). -/
structure ChunkRow where
  id : ℕ
  document_id : ℕ
  chunk_index : ℕ
  text : String
  embedding : Option (List ℚ)
  embedding_model : Option String
  embedding_dimensions : Option ℕ
  deriving DecidableEq

/-- A `wh.documents` row (the columns the search join reads). -/
structure DocumentRow where
  id : ℕ
  title : Option String
  url : String
  date_published : Option ℕ
  admin : String
  deriving DecidableEq

/-- One row of the `execute_values` upsert in
`DocumentRepository.insert_document_chunks` (models.py lines 341-351):
`INSERT ... ON CONFLICT (document_id, chunk_index) DO UPDATE SET text = ...,
embedding = NULL, embedding_model = NULL, embedding_dimensions = NULL`.
A conflicting row keeps its id and has text overwritten and embedding columns
nulled; otherwise a fresh row (with store-assigned serial `newId`) is
appended. Rows of the document at other indices are not touched. -/
def upsertChunkRow (table : List ChunkRow) (docId idx : ℕ) (text : String)
    (newId : ℕ) : List ChunkRow :=
  if table.any (fun r => r.document_id == docId && r.chunk_index == idx) then
    table.map (fun r =>
      if r.document_id == docId && r.chunk_index == idx then
        ⟨r.id, r.document_id, r.chunk_index, text, none, none, none⟩
      else r)
  else table ++ [⟨newId, docId, idx, text, none, none, none⟩]

/-- Embeds `DocumentRepository.insert_document_chunks` (models.py lines 328-356):
upserts `(document_id, index, chunk)` for `index, chunk in enumerate(chunks)`.
The effect on the table is returned (the Python function returns the row
count); `freshIds` is the store's serial allocator for newly inserted rows. -/
def insert_document_chunks (freshIds : ℕ → ℕ) (table : List ChunkRow)
    (docId : ℕ) (chunks : List String) : List ChunkRow :=
  match chunks with
  | [] => table
  | _ :: _ =>
    chunks.enum.foldl (fun t p => upsertChunkRow t docId p.1 p.2 (freshIds p.1)) table

/-- models.py line 484: the search result dataclass (`score` holds the
`c.embedding <=> query` distance). -/
structure SearchResult where
  chunk_id : ℕ
  document_id : ℕ
  chunk_index : ℕ
  score : ℚ
  text : String
  title : Option String
  url : String
  date_published : Option ℕ
  admin : String
  deriving DecidableEq

/-- Ascending-distance comparison used for the `ORDER BY c.embedding <=> q`
clause. Tie order among equal distances is unspecified by the store; this
model fixes one stable choice, which no verified property relies on. -/
def scoreLe (a b : SearchResult) : Prop := a.score ≤ b.score

instance : DecidableRel scoreLe :=
  fun a b => inferInstanceAs (Decidable (a.score ≤ b.score))

/-- Embeds `DocumentRepository.search_chunks_by_embedding` (models.py lines 416-461):
returns `[]` for a non-positive limit, else joins chunk rows having a non-null
embedding with their document, scores them with the store's distance operator
`dist`, and returns the `limit` nearest in ascending distance. -/
def search_chunks_by_embedding (dist : List ℚ → List ℚ → ℚ)
    (chunks : List ChunkRow) (docs : List DocumentRow)
    (embedding : List ℚ) (limit : ℤ) : List SearchResult :=
  if limit ≤ 0 then []
  else
    let rows := chunks.filterMap (fun c =>
      match c.embedding with
      | none => none
      | some v =>
        (docs.find? (fun d => d.id == c.document_id)).map (fun d =>
          (⟨c.id, c.document_id, c.chunk_index, dist v embedding, c.text,
            d.title, d.url, d.date_published, d.admin⟩ : SearchResult)))
    (List.insertionSort scoreLe rows).take limit.toNat

/-! ### Simple search (search.py lines 75-95)

`search` strips the query, embeds it, and calls the repository. The call
site passes the keyword arguments `embedding`, `limit` and `admins`
(search.py lines 91-95), while `search_chunks_by_embedding`'s keyword-only
signature (models.py lines 416-421) accepts `embedding` and `limit`: Python
binds keyword arguments by name, so the call is embedded together with that
binding check. -/

/-- The keyword parameters of `DocumentRepository.search_chunks_by_embedding`
(models.py lines 416-421). -/
def search_chunks_params : List String := ["embedding", "limit"]

/-- The keyword arguments passed at the call site search.py lines 91-95. -/
def search_site_kwargs : List String := ["embedding", "limit", "admins"]

/-- Embeds `search` (search.py lines 75-95), with the embedding client assumed constructed (an API key configured). An empty stripped query raises
ValueError; otherwise the query is embedded (one provider call on the cleaned
query) and the repository is invoked; the call raises TypeError when a passed
keyword is not a parameter of the callee. `adminFilter` only feeds the value
of the `admins` keyword. -/
def search (provider : List String → List (List ℚ)) (embModel : String)
    (dist : List ℚ → List ℚ → ℚ) (chunks : List ChunkRow)
    (docs : List DocumentRow) (query : String) (limit : ℤ)
    (adminFilter : Option (List String)) : Except PyError (List SearchResult) :=
  let cleaned := pyStrip query
  if cleaned = "" then Except.error (PyError.valueError "Query cannot be empty")
  else
    match embed_texts provider embModel [cleaned] with
    | Except.error e => Except.error e
    | Except.ok batch =>
      if batch.vectors = [] then Except.ok []
      else
        if search_site_kwargs.all (fun k => search_chunks_params.contains k) then
          Except.ok (search_chunks_by_embedding dist chunks docs
            batch.vectors.headI limit)
        else
          Except.error (PyError.typeError
            "search_chunks_by_embedding got an unexpected keyword argument admins")

/-! ### LLM relevance judge (search.py lines 22-409)

The judge's reply is free-form provider text. `json.loads` is embedded as an
oracle `decode : String → Option JValue` (`none` is a JSONDecodeError);
quantifying over the oracle covers every possible reply text. `JValue` is the
Python value a successful decode yields. -/

/-- A JSON-decoded Python value. Non-integer numeric payloads are carried as
integers only through their `str()` form being irrelevant to every verified
property (any numeric answer value normalizes to an invalid verdict). -/
inductive JValue where
  | jnull
  | jbool (b : Bool)
  | jnum (n : ℤ)
  | jstr (s : String)
  | jarr (xs : List JValue)
  | jobj (fields : List (String × JValue))

/-- Python truthiness of a JSON-decoded value. -/
def JValue.truthy : JValue → Bool
  | JValue.jnull => false
  | JValue.jbool b => b
  | JValue.jnum n => n != 0
  | JValue.jstr s => s != ""
  | JValue.jarr xs => !xs.isEmpty
  | JValue.jobj fs => !fs.isEmpty

mutual

/-- Python `repr()` of a JSON-decoded value (`\x27` is the single quote). -/
def JValue.pyRepr : JValue → String
  | JValue.jnull => "None"
  | JValue.jbool true => "True"
  | JValue.jbool false => "False"
  | JValue.jnum n => toString n
  | JValue.jstr s => "\x27" ++ s ++ "\x27"
  | JValue.jarr xs => "[" ++ pyReprList xs ++ "]"
  | JValue.jobj fs => "\x7b" ++ pyReprFields fs ++ "\x7d"

/-- Comma-joined element reprs of a Python list. -/
def pyReprList : List JValue → String
  | [] => ""
  | [x] => JValue.pyRepr x
  | x :: y :: rest => JValue.pyRepr x ++ ", " ++ pyReprList (y :: rest)

/-- Comma-joined `key: value` reprs of a Python dict. -/
def pyReprFields : List (String × JValue) → String
  | [] => ""
  | [kv] => "\x27" ++ kv.1 ++ "\x27: " ++ JValue.pyRepr kv.2
  | kv :: kv2 :: rest =>
    "\x27" ++ kv.1 ++ "\x27: " ++ JValue.pyRepr kv.2 ++ ", " ++ pyReprFields (kv2 :: rest)

end

/-- Python `str()` of a JSON-decoded value. -/
def pyStr : JValue → String
  | JValue.jstr s => s
  | v => JValue.pyRepr v

/-- A decoded JSON `null` is the Python value `None`: collapse it into the
`Option` layer that models `None`. -/
def collapseNull : Option JValue → Option JValue
  | some JValue.jnull => none
  | v => v

/-- Python `dict.get(k)`: the value under `k`, `None` when the key is absent
(or its value is JSON null). JSON objects have unique keys, so first-match
lookup is exact. -/
def jobjGet (fs : List (String × JValue)) (k : String) : Option JValue :=
  collapseNull ((fs.find? (fun kv => kv.1 == k)).map (fun kv => kv.2))

/-- Python `a or b` on values where `a : Option JValue` models a possibly-None
value: short-circuits on a truthy `a`. -/
def pyOrJ (a b : Option JValue) : Option JValue :=
  match a with
  | some v => if v.truthy then some v else b
  | none => b

/-- search.py line 22: the judgment dataclass. `explanation` holds whatever
Python value the reply carried (the annotation `str | None` is unchecked). -/
structure LLMJudgment where
  response : String
  valid_response : Bool
  explanation : Option JValue

/-- The normalization tail of `_extract_judgment` (search.py lines 405-409):
upper-case the answer; `YES`/`NO` are valid verdicts, anything else keeps the
original text with `valid_response = False`. -/
def mkJudgment (answer : String) (explanation : Option JValue) : LLMJudgment :=
  let normalized := answer.toUpper
  if normalized = "YES" || normalized = "NO" then ⟨normalized, true, explanation⟩
  else ⟨answer, false, explanation⟩

/-- Embeds `LLMRelevanceJudge._extract_judgment` (search.py lines 387-409): a missing
entry is invalid with a `missing entry` marker; a string entry is its own
answer; a dict entry reads `answer` falling back to `decision` (Python `or`,
so falsy values fall through) and `explanation` falling back to `reason`;
any other value is stringified. -/
def extract_judgment : Option JValue → LLMJudgment
  | none => ⟨"", false, some (JValue.jstr "missing entry")⟩
  | some entry =>
    match entry with
    | JValue.jstr s => mkJudgment (pyStrip s) none
    | JValue.jobj fs =>
      let rawAnswer := pyOrJ (jobjGet fs "answer") (jobjGet fs "decision")
      let explanation := pyOrJ (jobjGet fs "explanation") (jobjGet fs "reason")
      let answer :=
        match rawAnswer with
        | none => ""
        | some v => pyStrip (pyStr v)
      mkJudgment answer explanation
    | v => mkJudgment (pyStrip (pyStr v)) none

/-- Python `str.splitlines` restricted to `\n`, `\r\n` and `\r` boundaries
(the exotic Unicode line boundaries Python also recognizes cannot occur in
the fence lines this is applied to). -/
def pySplitlinesAux : List Char → List Char → List String
  | [], acc => if acc.isEmpty then [] else [String.mk acc.reverse]
  | '\r' :: '\n' :: rest, acc => String.mk acc.reverse :: pySplitlinesAux rest []
  | '\r' :: rest, acc => String.mk acc.reverse :: pySplitlinesAux rest []
  | '\n' :: rest, acc => String.mk acc.reverse :: pySplitlinesAux rest []
  | c :: rest, acc => pySplitlinesAux rest (c :: acc)

/-- Python `str.splitlines` (see `pySplitlinesAux`). -/
def pySplitlines (s : String) : List String := pySplitlinesAux s.data []

/-- Whether the first line starts with a Markdown fence. -/
def headIsFence (lines : List String) : Bool :=
  match lines.head? with
  | some l0 => "```".isPrefixOf l0
  | none => false

/-- Embeds `LLMRelevanceJudge._strip_code_fence` (search.py lines 368-385): strip the
payload; if it does not open with a fence return it; otherwise drop the first
line (which may carry a language tag) when at least two lines exist, drop a
closing fence line, rejoin and strip. -/
def strip_code_fence (payloadText : String) : String :=
  if payloadText = "" then ""
  else
    let stripped := pyStrip payloadText
    if !("```".isPrefixOf stripped) then stripped
    else
      let lines := pySplitlines stripped
      let lines1 := if 2 ≤ lines.length ∧ headIsFence lines = true then lines.tail else lines
      let lines2 :=
        match lines1.getLast? with
        | some last => if "```".isPrefixOf (pyStrip last) then lines1.dropLast else lines1
        | none => lines1
      pyStrip (String.intercalate "\n" lines2)

/-- Embeds `LLMRelevanceJudge._parse_response` (search.py lines 336-366): strip
fences; an empty cleaned payload or a decode failure yields one invalid
judgment per expected candidate; a decoded dict is unwrapped through the
`answers`/`results` keys or wrapped as a singleton; a non-list decode is
wrapped; finally index 0..expected-1 is extracted, out-of-range indices as
missing entries. -/
def parse_response (decode : String → Option JValue) (payloadText : String)
    (expected : ℕ) : List LLMJudgment :=
  let cleaned := strip_code_fence payloadText
  if cleaned = "" then
    (List.range expected).map (fun _ => ⟨"empty response from model", false, none⟩)
  else
    match decode cleaned with
    | none => (List.range expected).map (fun _ => ⟨pyStrip payloadText, false, none⟩)
    | some payload =>
      let arr : List JValue :=
        match payload with
        | JValue.jobj fs =>
          match jobjGet fs "answers" with
          | some (JValue.jarr xs) => xs
          | _ =>
            match jobjGet fs "results" with
            | some (JValue.jarr ys) => ys
            | _ => [JValue.jobj fs]
        | JValue.jarr xs => xs
        | v => [v]
      (List.range expected).map (fun i => extract_judgment (collapseNull arr[i]?))

/-- Python `str.split()` with no argument: whitespace runs as separators,
empties dropped. -/
def pySplitWs (s : String) : List String :=
  (s.split Char.isWhitespace).filter (fun w => w ≠ "")

/-- Embeds `trim_text` (search.py lines 252-259): cap a text at `max_words` words,
append an ellipsis when truncation happened and left something. -/
def trim_text (text : String) (maxWords : ℕ) : String :=
  let words := pySplitWs text
  if words.length ≤ maxWords then pyStrip text
  else
    let trimmed := pyStrip (String.intercalate " " (words.take maxWords))
    if trimmed = "" then pyStrip text else trimmed ++ "..."

/-- search.py line 31: an ANN hit enriched with its judgment. -/
structure AdvancedSearchResult where
  chunk : SearchResult
  judgment : LLMJudgment

/-- Embeds `LLMRelevanceJudge.judge` (search.py lines 282-298): trim every
candidate's text, walk fixed-size batches, and zip each batch with the parsed
judgments of the provider reply for that batch's prompt. `invokeOn query
batch` is `_invoke (_build_prompt query batch)`: the prompt text feeds only
the provider, so the prompt builder and the network call are one oracle. -/
def LLMRelevanceJudge.judge (decode : String → Option JValue)
    (invokeOn : String → List (SearchResult × String) → String)
    (batchSize maxWords : ℕ) (query : String) (results : List SearchResult) :
    List AdvancedSearchResult :=
  match results with
  | [] => []
  | _ :: _ =>
    let trimmed := results.map (fun r => (r, trim_text r.text maxWords))
    ((batchSlices batchSize trimmed).map (fun batch =>
      let judgments := parse_response decode (invokeOn query batch) batch.length
      (batch.zip judgments).map (fun p => AdvancedSearchResult.mk p.1.1 p.2))).flatten

/-! ### Web result sorting and similarity (web/app.py lines 46-65) -/

/-- Python `date.min` in the day-ordinal encoding of publish dates. -/
def date_min : ℕ := 0

/-- The sort key of `_sort_results` (web/app.py lines 52-54):
`(result.date_published or date.min, result.document_id)`. -/
def sortValue (r : SearchResult) : ℕ × ℕ :=
  (r.date_published.getD date_min, r.document_id)

/-- Lexicographic order on sort keys: Python tuple comparison. -/
def pairLe (p q : ℕ × ℕ) : Prop := p.1 < q.1 ∨ (p.1 = q.1 ∧ p.2 ≤ q.2)

instance : DecidableRel pairLe :=
  fun p q => inferInstanceAs (Decidable (p.1 < q.1 ∨ (p.1 = q.1 ∧ p.2 ≤ q.2)))

/-- Ascending comparison on results by `sortValue`. -/
def ascRel (a b : SearchResult) : Prop := pairLe (sortValue a) (sortValue b)

/-- Descending comparison on results by `sortValue` (Python `reverse=True`). -/
def descRel (a b : SearchResult) : Prop := pairLe (sortValue b) (sortValue a)

instance : DecidableRel ascRel :=
  fun a b => inferInstanceAs (Decidable (pairLe (sortValue a) (sortValue b)))

instance : DecidableRel descRel :=
  fun a b => inferInstanceAs (Decidable (pairLe (sortValue b) (sortValue a)))

/-- Embeds `_sort_results` (web/app.py lines 46-56): pass-through for relevance,
else a stable sort by `sortValue`, reversed for `date_desc`. -/
def sort_results (results : List SearchResult) (sortKey : String) :
    List SearchResult :=
  if sortKey = "relevance" then results
  else if sortKey = "date_desc" then List.insertionSort descRel results
  else List.insertionSort ascRel results

/-- The claim-side relation for the amended C7 (ascending case): whenever a
later result has no publish date, every earlier one has none either — i.e.
missing dates form a prefix of the output. -/
def missingDatesLeft (a b : SearchResult) : Prop :=
  b.date_published = none → a.date_published = none

/-- The claim-side relation for the amended C7 (descending case): whenever an
earlier result has no publish date, every later one has none either — i.e.
missing dates form a suffix of the output. -/
def missingDatesRight (a b : SearchResult) : Prop :=
  a.date_published = none → b.date_published = none

/-- Embeds `_similarity` (web/app.py lines 59-65): `1 - distance` clamped
to `[0, 1]`. -/
def similarity (distance : ℚ) : ℚ :=
  let s := 1 - distance
  if s < 0 then 0 else if s > 1 then 1 else s

/-! ### Report header similarities (search.py lines 153-222) -/

/-- search.py line 40: a row handed to the CLI printer or file writer. -/
structure SearchOutput where
  chunk : SearchResult
  judgment : Option LLMJudgment

/-- search.py line 189: `cosine_scores = [1 - output.chunk.score for output
in results]` — no clamping. -/
def report_cosine_scores (results : List SearchOutput) : List ℚ :=
  results.map (fun o => 1 - o.chunk.score)

/-- Python `max(l, default=d)`. -/
def pyMax (l : List ℚ) (dflt : ℚ) : ℚ :=
  match l with
  | [] => dflt
  | x :: xs => xs.foldl max x

/-- Python `min(l, default=d)`. -/
def pyMin (l : List ℚ) (dflt : ℚ) : ℚ :=
  match l with
  | [] => dflt
  | x :: xs => xs.foldl min x

/-- search.py line 190: the `Max cosine similarity` header figure. -/
def report_max_similarity (results : List SearchOutput) : ℚ :=
  pyMax (report_cosine_scores results) 0

/-- search.py line 191: the `Min cosine similarity` header figure. -/
def report_min_similarity (results : List SearchOutput) : ℚ :=
  pyMin (report_cosine_scores results) 0

/-! ### Settings and the judge constructor (config.py, search.py lines 265-280) -/

/-- The `Settings` dataclass (config.py lines 15-33): exactly the attributes
the dataclass defines. -/
structure Settings where
  db_host : String
  db_port : ℤ
  db_name : String
  db_user : String
  db_password : Option String
  request_timeout : ℤ
  request_delay : ℚ
  openai_api_key : Option String
  openai_embedding_model : String
  embedding_batch_size : ℤ
  chunk_max_tokens : ℤ
  chunk_overlap_tokens : ℤ

/-- A dynamically-typed settings attribute value. -/
inductive SettingsValue where
  | vStr (s : String)
  | vInt (n : ℤ)
  | vRat (q : ℚ)
  | vNone
  deriving DecidableEq

/-- Python attribute lookup on a `Settings` instance: the dataclass fields of
config.py lines 19-32, and AttributeError for any other name. -/
def Settings.getattr (s : Settings) (name : String) : Except PyError SettingsValue :=
  if name = "db_host" then Except.ok (SettingsValue.vStr s.db_host)
  else if name = "db_port" then Except.ok (SettingsValue.vInt s.db_port)
  else if name = "db_name" then Except.ok (SettingsValue.vStr s.db_name)
  else if name = "db_user" then Except.ok (SettingsValue.vStr s.db_user)
  else if name = "db_password" then
    Except.ok (match s.db_password with
      | some p => SettingsValue.vStr p
      | none => SettingsValue.vNone)
  else if name = "request_timeout" then Except.ok (SettingsValue.vInt s.request_timeout)
  else if name = "request_delay" then Except.ok (SettingsValue.vRat s.request_delay)
  else if name = "openai_api_key" then
    Except.ok (match s.openai_api_key with
      | some k => SettingsValue.vStr k
      | none => SettingsValue.vNone)
  else if name = "openai_embedding_model" then
    Except.ok (SettingsValue.vStr s.openai_embedding_model)
  else if name = "embedding_batch_size" then
    Except.ok (SettingsValue.vInt s.embedding_batch_size)
  else if name = "chunk_max_tokens" then Except.ok (SettingsValue.vInt s.chunk_max_tokens)
  else if name = "chunk_overlap_tokens" then
    Except.ok (SettingsValue.vInt s.chunk_overlap_tokens)
  else Except.error (PyError.attributeError name)

/-- Python falsiness of an optional string (`not key`). -/
def optStrFalsy : Option String → Bool
  | none => true
  | some s => s == ""

/-- Models `explicit or SETTINGS.<attrName>` where the result is a string-valued
judge field: short-circuits on a truthy explicit argument, else reads the
settings attribute. Python performs no conversion on the attribute value; the
non-string arm is unreachable for the attribute names the judge constructor
reads (they are not `Settings` attributes at all). -/
def orAttrStr (explicit : Option String) (s : Settings) (attrName : String) :
    Except PyError String :=
  let fallback : Except PyError String :=
    match s.getattr attrName with
    | Except.error e => Except.error e
    | Except.ok (SettingsValue.vStr v) => Except.ok v
    | Except.ok _ => Except.ok ""
  match explicit with
  | some v => if v ≠ "" then Except.ok v else fallback
  | none => fallback

/-- Models `explicit or SETTINGS.<attrName>` for an integer-valued judge field
(`0` is falsy and falls through, as in Python). -/
def orAttrInt (explicit : Option ℤ) (s : Settings) (attrName : String) :
    Except PyError ℤ :=
  let fallback : Except PyError ℤ :=
    match s.getattr attrName with
    | Except.error e => Except.error e
    | Except.ok (SettingsValue.vInt v) => Except.ok v
    | Except.ok _ => Except.ok 0
  match explicit with
  | some v => if v ≠ 0 then Except.ok v else fallback
  | none => fallback

/-- The fields `LLMRelevanceJudge.__init__` assigns (the network client
handle is not modelled). -/
structure LLMRelevanceJudgeState where
  model : String
  batch_size : ℤ
  max_words : ℤ

/-- Embeds `LLMRelevanceJudge.__init__` (search.py lines 265-280):
`key = api_key or SETTINGS.openai_api_key`, RuntimeError when falsy; then
`self.model = model or SETTINGS.openai_relevance_model`,
`self.batch_size = batch_size or SETTINGS.relevance_batch_size`,
`self.max_words = max_words or SETTINGS.relevance_max_words` — attribute
reads on `Settings`, which defines none of those three names. -/
def LLMRelevanceJudge.init (s : Settings) (api_key model : Option String)
    (batch_size max_words : Option ℤ) : Except PyError LLMRelevanceJudgeState :=
  let key : Option String :=
    match api_key with
    | some a => if a ≠ "" then some a else s.openai_api_key
    | none => s.openai_api_key
  if optStrFalsy key then
    Except.error (PyError.runtimeError "OPENAI_API_KEY is required for advanced search")
  else
    match orAttrStr model s "openai_relevance_model" with
    | Except.error e => Except.error e
    | Except.ok mdl =>
      match orAttrInt batch_size s "relevance_batch_size" with
      | Except.error e => Except.error e
      | Except.ok bs =>
        match orAttrInt max_words s "relevance_max_words" with
        | Except.error e => Except.error e
        | Except.ok mw => Except.ok ⟨mdl, bs, mw⟩

/-! ### Concrete inputs used by counterexamples and witnesses -/

/-- A store state with one fully-embedded document (id 7) split into two
chunks, as left by a chunk-then-embed run. -/
def stale_table : List ChunkRow :=
  [⟨11, 7, 0, "old chunk zero", some [1, 0], some "text-embedding-3-small", some 2⟩,
   ⟨12, 7, 1, "old chunk one", some [0, 1], some "text-embedding-3-small", some 2⟩]

/-- A search result with a known publish date. -/
def r_dated : SearchResult :=
  ⟨1, 1, 0, 0, "dated chunk", none, "https://example.org/a", some 700000, "biden"⟩

/-- A search result with a missing (NULL) publish date. -/
def r_missing : SearchResult :=
  ⟨2, 2, 0, 0, "undated chunk", none, "https://example.org/b", none, "biden"⟩

/-- A file-writer row whose chunk carries cosine distance 3/2 (possible for
the pgvector cosine metric, whose range is [0, 2]). -/
def far_output : SearchOutput :=
  ⟨⟨3, 3, 0, 3 / 2, "far chunk", none, "https://example.org/c", none, "biden"⟩, none⟩

/-- A settings instance with every config.py default and an API key set. -/
def test_settings : Settings :=
  ⟨"localhost", 5432, "wh_briefings", "wh_user", none, 20, 1,
   some "sk-test", "text-embedding-3-small", 64, 400, 40⟩

/-- A constant per-text embedding answer (one fixed 2-dimensional vector). -/
def const_vec : String → List ℚ := fun _ => [1, 0]

/-- An embedding provider answering every call with one fixed 2-dimensional
vector per input text. -/
def unit_provider : List String → List (List ℚ) :=
  fun ts => ts.map const_vec

/-- A tiktoken decoder oracle answering a fixed non-blank text. -/
def const_decoder : List ℕ → String := fun _ => "t"

/-- A `json.loads` oracle that always fails to decode. -/
def none_decoder : String → Option JValue := fun _ => none

/-- A judge provider oracle that always replies with the empty string. -/
def empty_invoker : String → List (SearchResult × String) → String := fun _ _ => ""

/-! ## Theorems -/

/-- Lemma: `_parse_response` returns one judgment per expected candidate, whatever
the reply text decodes to. -/
theorem parse_response_length (decode : String → Option JValue)
    (payloadText : String) (expected : ℕ) :
    (parse_response decode payloadText expected).length = expected := by
  simp only [parse_response]
  by_cases h : strip_code_fence payloadText = ""
  · simp [h]
  · rw [if_neg h]
    cases hd : decode (strip_code_fence payloadText) <;> simp

/-- Concatenating the fixed-size slices recovers the input list. -/
theorem batchSlices_flatten {α : Type u} (bs : ℕ) (hbs : 1 ≤ bs) :
    ∀ l : List α, (batchSlices bs l).flatten = l
  | [] => by simp [batchSlices]
  | x :: xs => by
    rw [batchSlices, List.flatten_cons,
      batchSlices_flatten bs hbs (xs.drop (bs - 1))]
    obtain ⟨k, rfl⟩ : ∃ k, bs = k + 1 := ⟨bs - 1, by omega⟩
    simp [List.take_append_drop]
  termination_by l => l.length
  decreasing_by
    simp only [List.length_drop, List.length_cons]
    omega

/-- Every fixed-size slice of a list is non-empty when the step is
positive. -/
theorem batchSlices_ne_nil {α : Type u} (bs : ℕ) (hbs : 1 ≤ bs) :
    ∀ l : List α, ∀ s ∈ batchSlices bs l, s ≠ []
  | [] => by simp [batchSlices]
  | x :: xs => by
    intro s hs
    rw [batchSlices] at hs
    rcases List.mem_cons.mp hs with h | h
    · subst h
      obtain ⟨k, rfl⟩ : ∃ k, bs = k + 1 := ⟨bs - 1, by omega⟩
      simp
    · exact batchSlices_ne_nil bs hbs (xs.drop (bs - 1)) s h
  termination_by l => l.length
  decreasing_by
    simp only [List.length_drop, List.length_cons]
    omega

/-- Mapping each judged batch back to its chunks recovers the batched
candidates: per batch, the zip with the (always batch-length) judgment list
projects back to the batch. -/
theorem judge_batches_map_chunk (decode : String → Option JValue)
    (invokeOn : String → List (SearchResult × String) → String) (query : String)
    (slices : List (List (SearchResult × String))) :
    ((slices.map (fun batch =>
        (batch.zip (parse_response decode (invokeOn query batch) batch.length)).map
          (fun p => AdvancedSearchResult.mk p.1.1 p.2))).flatten).map
        AdvancedSearchResult.chunk
      = (slices.flatten).map Prod.fst := by
  rw [List.map_flatten, List.map_map, List.map_flatten]
  refine congrArg List.flatten (List.map_congr_left ?_)
  intro b _
  simp only [Function.comp_apply, List.map_map]
  show (b.zip (parse_response decode (invokeOn query b) b.length)).map
      (fun p => p.1.1) = b.map Prod.fst
  have h1 : (b.zip (parse_response decode (invokeOn query b) b.length)).map
      (fun p => p.1.1)
      = ((b.zip (parse_response decode (invokeOn query b) b.length)).map
          Prod.fst).map Prod.fst := by
    rw [List.map_map]
    rfl
  rw [h1, List.map_fst_zip]
  rw [parse_response_length]

/-- C2 — `judge(query, candidates)` returns exactly one judgment per
candidate, in candidate order, for every possible provider reply (the reply
text and its decode outcome are universally quantified oracles, covering
malformed, truncated, non-JSON, empty and object-shaped replies): the output
row chunks are the input candidates in order, hence the output length equals
the input length. `batchSize` is positive for any constructed judge (Python's
`range` rejects a zero step and the constructor's `or`-chain rejects falsy
sizes). -/
theorem c2_judge_parallel_arrays (decode : String → Option JValue)
    (invokeOn : String → List (SearchResult × String) → String)
    (batchSize maxWords : ℕ) (query : String) (results : List SearchResult)
    (hbs : 1 ≤ batchSize) :
    (LLMRelevanceJudge.judge decode invokeOn batchSize maxWords query
        results).map AdvancedSearchResult.chunk = results
    ∧ (LLMRelevanceJudge.judge decode invokeOn batchSize maxWords query
        results).length = results.length := by
  have hmap : (LLMRelevanceJudge.judge decode invokeOn batchSize maxWords query
      results).map AdvancedSearchResult.chunk = results := by
    match results with
    | [] => simp [LLMRelevanceJudge.judge]
    | r :: rs =>
      show (((batchSlices batchSize
          ((r :: rs).map (fun x => (x, trim_text x.text maxWords)))).map
            (fun batch =>
              (batch.zip (parse_response decode (invokeOn query batch)
                batch.length)).map
                (fun p => AdvancedSearchResult.mk p.1.1 p.2))).flatten).map
          AdvancedSearchResult.chunk = r :: rs
      rw [judge_batches_map_chunk, batchSlices_flatten batchSize hbs,
        List.map_map]
      rw [show (Prod.fst ∘ fun x : SearchResult => (x, trim_text x.text maxWords))
          = id from rfl, List.map_id]
  refine ⟨hmap, ?_⟩
  calc (LLMRelevanceJudge.judge decode invokeOn batchSize maxWords query
          results).length
      = ((LLMRelevanceJudge.judge decode invokeOn batchSize maxWords query
          results).map AdvancedSearchResult.chunk).length :=
        (List.length_map _ _).symm
    _ = results.length := by rw [hmap]

/-- Witness for C2: a one-candidate search whose provider reply is empty
(undecodable), with the default-scale batch size. -/
theorem c2_judge_parallel_arrays_witness :
    (1 ≤ 10)
    ∧ (LLMRelevanceJudge.judge none_decoder empty_invoker 10 120
        "economic policy" [r_dated]).map AdvancedSearchResult.chunk = [r_dated]
    ∧ (LLMRelevanceJudge.judge none_decoder empty_invoker 10 120
        "economic policy" [r_dated]).length = 1 := by
  have h := c2_judge_parallel_arrays none_decoder empty_invoker 10 120
    "economic policy" [r_dated] (by norm_num)
  exact ⟨by norm_num, h.1, h.2⟩

/-- The loop of `embed_in_batches` under a provider that answers each call
pointwise with `f`: it succeeds, accumulates the per-slice vectors in input
order, and ends with the last slice's dimensions. -/
theorem embedLoop_spec (provider : List String → List (List ℚ))
    (f : String → List ℚ) (model : String)
    (hprov : ∀ ts, provider ts = ts.map f) :
    ∀ slices : List (List String), (∀ s ∈ slices, s ≠ []) →
      ∀ (dims : ℕ) (acc : List (List ℚ)),
      embedLoop provider model slices dims acc
        = Except.ok (lastDims f slices dims, acc ++ slices.flatten.map f)
  | [], _, dims, acc => by simp [embedLoop, lastDims]
  | b :: rest, hne, dims, acc => by
    obtain ⟨b0, bs', rfl⟩ : ∃ b0 bs', b = b0 :: bs' := by
      cases b with
      | nil => exact absurd rfl (hne [] (by simp))
      | cons b0 bs' => exact ⟨b0, bs', rfl⟩
    have hrest : ∀ s ∈ rest, s ≠ [] := fun s hs => hne s (by simp [hs])
    simp only [embedLoop, embed_texts, hprov, List.map_cons]
    rw [embedLoop_spec provider f model hprov rest hrest (f b0).length
      (acc ++ (f b0 :: bs'.map f))]
    simp [lastDims]

/-- C4 — `embed_in_batches` preserves length and order: with a well-behaved
provider (one vector `f t` per input text `t`, per group), the returned
vectors are exactly `texts.map f`: same length as `texts` and the vector at
each position is the embedding of the text at that position, the per-group
results concatenated in global input order. -/
theorem c4_embed_in_batches_order (provider : List String → List (List ℚ))
    (f : String → List ℚ) (model : String) (batchSize : ℕ)
    (texts : List String) (hprov : ∀ ts, provider ts = ts.map f)
    (hbs : 1 ≤ batchSize) (hne : texts ≠ []) :
    Except.map EmbeddingBatch.vectors
        (embed_in_batches provider model batchSize texts)
      = Except.ok (texts.map f) := by
  obtain ⟨t, ts, rfl⟩ := List.exists_cons_of_ne_nil hne
  simp only [embed_in_batches]
  rw [embedLoop_spec provider f model hprov _
    (batchSlices_ne_nil batchSize hbs (t :: ts)) 0 []]
  rw [batchSlices_flatten batchSize hbs]
  rfl

/-- Witness for C4: three texts in batches of two under the constant
per-text provider. -/
theorem c4_embed_in_batches_order_witness :
    (∀ ts, unit_provider ts = ts.map const_vec) ∧ (1 ≤ 2)
    ∧ Except.map EmbeddingBatch.vectors
        (embed_in_batches unit_provider "text-embedding-3-small" 2 ["a", "b", "c"])
      = Except.ok (["a", "b", "c"].map const_vec) :=
  ⟨fun _ => rfl, by norm_num,
    c4_embed_in_batches_order unit_provider const_vec "text-embedding-3-small" 2
      ["a", "b", "c"] (fun _ => rfl) (by norm_num) (by simp)⟩

/-- C8 counterexample — two texts embedded with batch size 1 under a provider
whose vectors are 2-dimensional for the first batch and 3-dimensional for the
second: `embed_in_batches` returns successfully (no protocol error, no hard
failure for either batch) with the mixed-dimension vectors (lengths 2 and 3)
and the `dimensions` field silently coerced to the last batch's value 3 —
refuting the claim that a cross-group dimension mismatch is surfaced as a
hard failure. -/
theorem c8_dimension_mismatch_not_surfaced :
    embed_in_batches dim_provider "text-embedding-3-small" 1 ["a", "b"]
      = Except.ok ⟨"text-embedding-3-small", 3, [[0, 0], [0, 0, 0]]⟩
    ∧ ([[(0 : ℚ), 0], [0, 0, 0]].map List.length = [2, 3]) := by
  constructor
  · simp [embed_in_batches, batchSlices, embedLoop, embed_texts, dim_provider,
      dim_by_text]
  · simp

/-- C8 amended — `embed_in_batches` performs no dimension check across
groups: with a well-behaved per-group provider it always returns `ok`, the
reported `dimensions` being whatever the last group produced (`lastDims`),
even when groups disagree; the mismatch is silently coerced, not surfaced. -/
theorem c8_dimensions_are_last_groups (provider : List String → List (List ℚ))
    (f : String → List ℚ) (model : String) (batchSize : ℕ)
    (texts : List String) (hprov : ∀ ts, provider ts = ts.map f)
    (hbs : 1 ≤ batchSize) (hne : texts ≠ []) :
    embed_in_batches provider model batchSize texts
      = Except.ok ⟨model, lastDims f (batchSlices batchSize texts) 0,
          texts.map f⟩ := by
  obtain ⟨t, ts, rfl⟩ := List.exists_cons_of_ne_nil hne
  simp only [embed_in_batches]
  rw [embedLoop_spec provider f model hprov _
    (batchSlices_ne_nil batchSize hbs (t :: ts)) 0 []]
  rw [batchSlices_flatten batchSize hbs]
  rfl

/-- Witness for C8 (amended) at the mismatching per-text provider. -/
theorem c8_dimensions_are_last_groups_witness :
    (∀ ts, dim_provider ts = ts.map dim_by_text) ∧ (1 ≤ 1)
    ∧ embed_in_batches dim_provider "text-embedding-3-small" 1 ["a", "b"]
      = Except.ok ⟨"text-embedding-3-small",
          lastDims dim_by_text (batchSlices 1 ["a", "b"]) 0,
          ["a", "b"].map dim_by_text⟩ :=
  ⟨fun _ => rfl, by norm_num,
    c8_dimensions_are_last_groups dim_provider dim_by_text
      "text-embedding-3-small" 1 ["a", "b"] (fun _ => rfl) (by norm_num)
      (by simp)⟩

/-- C1 — the claim says a simple search over a store with no eligible
embeddings returns an empty result list (printed as `No matches found`)
rather than raising. The code instead raises on every simple search: the call
site search.py lines 91-95 passes the keyword `admins` that
`search_chunks_by_embedding` (models.py lines 416-421) does not accept, a
TypeError thrown before the store is consulted. The second conjunct shows the
repository query alone would have produced the claimed empty result for the
embedding-free store, so the claim matches the evident intent and the call
signature mismatch is the slip. -/
theorem c1_simple_search_raises_type_error :
    search unit_provider "text-embedding-3-small" (fun _ _ => 0) [] []
        "economic policy" 5 none
      = Except.error (PyError.typeError
          "search_chunks_by_embedding got an unexpected keyword argument admins")
    ∧ search_chunks_by_embedding (fun _ _ => 0) [] [] [1, 0] 5 = [] := by
  constructor
  · decide
  · decide

/-- C3 — the claim says re-running the chunk upsert for a document clears
every chunk row's embedding and leaves a dense `0..N-1` index range for the
new chunk count `N`. Re-chunking document 7 from two embedded chunks down to
one (`N = 1`): the upsert only touches index 0, so the row at index 1
survives with its embedding, model and dimensions intact — the stored indices
are `{0, 1}`, not `{0}`, and a non-null embedding remains. -/
theorem c3_rechunk_shrink_leaves_stale_embedded_row :
    insert_document_chunks (fun i => 20 + i) stale_table 7 ["new single chunk"]
      = [⟨11, 7, 0, "new single chunk", none, none, none⟩,
         ⟨12, 7, 1, "old chunk one", some [0, 1], some "text-embedding-3-small", some 2⟩] := by
  decide

/-- Every window the loop emits spans at most `maxT` tokens, is non-empty,
and ends within the text. -/
theorem chunkWindows_bound (maxT overlap : ℕ) (hmax : 0 < maxT)
    (total start : ℕ) :
    ∀ w ∈ chunkWindows maxT overlap hmax total start,
      w.2 - w.1 ≤ maxT ∧ w.1 < w.2 ∧ w.2 ≤ total := by
  intro w hw
  rw [chunkWindows] at hw
  split at hw
  case isTrue h =>
    simp only at hw
    split at hw
    case isTrue he =>
      rcases List.mem_singleton.mp hw with rfl
      refine ⟨?_, ?_, ?_⟩ <;> simp <;> omega
    case isFalse he =>
      rcases List.mem_cons.mp hw with rfl | hw'
      · refine ⟨?_, ?_, ?_⟩ <;> simp <;> omega
      · exact chunkWindows_bound maxT overlap hmax total
          (nextStart overlap start (min (start + maxT) total)) w hw'
  case isFalse h => simp at hw
  termination_by total - start
  decreasing_by
    simp only [nextStart]
    split_ifs <;> omega

/-- C5 — the segmentation loop terminates for every validated configuration
(`chunkWindows` is accepted by well-founded recursion on `total - start`; the
second conjunct is the progress fact that drives it: from any position strictly
inside a window, the computed next start strictly advances, the
`next_start = end` forcing included), and every emitted window spans at most
`max_tokens` tokens (the first conjunct; the returned chunks are the decoded
texts of these windows, and a text that fits whole is trivially within the
budget). -/
theorem c5_chunk_text_terminates_and_bounded (maxT overlap : ℕ)
    (hmax : 0 < maxT) (hover : overlap < maxT) (total : ℕ) :
    (∀ w ∈ chunkWindows maxT overlap hmax total 0, w.2 - w.1 ≤ maxT ∧ w.1 < w.2)
    ∧ (∀ start e, start < e → start < nextStart overlap start e) := by
  constructor
  · intro w hw
    exact ⟨(chunkWindows_bound maxT overlap hmax total 0 w hw).1,
      (chunkWindows_bound maxT overlap hmax total 0 w hw).2.1⟩
  · intro s e h
    simp only [nextStart]
    split_ifs <;> omega

/-- Witness for C5: the middle window of a 10-token text chunked with
`max_tokens = 4`, `overlap_tokens = 1`. -/
theorem c5_chunk_text_terminates_and_bounded_witness :
    ((0 : ℕ) < 4 ∧ (1 : ℕ) < 4)
    ∧ ((3, 7) ∈ chunkWindows 4 1 (by norm_num) 10 0
        ∧ (3, 7).2 - (3, 7).1 ≤ 4 ∧ (3, 7).1 < (3, 7).2)
    ∧ 3 < nextStart 1 3 7 := by
  have hwin : chunkWindows 4 1 (by norm_num) 10 0 = [(0, 4), (3, 7), (6, 10)] := by
    rw [chunkWindows]
    norm_num [nextStart]
    rw [chunkWindows]
    norm_num [nextStart]
    rw [chunkWindows]
    norm_num
  have hmem : (3, 7) ∈ chunkWindows 4 1 (by norm_num) 10 0 := by
    rw [hwin]; simp
  have h := c5_chunk_text_terminates_and_bounded 4 1 (by norm_num) (by norm_num) 10
  exact ⟨⟨by norm_num, by norm_num⟩,
    ⟨hmem, (h.1 (3, 7) hmem).1, (h.1 (3, 7) hmem).2⟩, h.2 3 7 (by norm_num)⟩

/-- The loop always emits at least one window from a position inside the
text, the first starting exactly there. -/
theorem chunkWindows_cons (maxT overlap : ℕ) (hmax : 0 < maxT)
    (total start : ℕ) (h : start < total) :
    ∃ rest, chunkWindows maxT overlap hmax total start
      = (start, min (start + maxT) total) :: rest := by
  rw [chunkWindows, dif_pos h]
  by_cases he : min (start + maxT) total = total <;> simp [he]

/-- A window slice followed by the rest of the token list is the token list
from the window's start. -/
theorem windowSlice_append_drop (tokens : List ℕ) (s e : ℕ) (hse : s ≤ e) :
    windowSlice tokens (s, e) ++ tokens.drop e = tokens.drop s := by
  have h1 : tokens.drop e = (tokens.drop s).drop (e - s) := by
    rw [List.drop_drop]
    congr 1
    omega
  rw [windowSlice, h1]
  exact List.take_append_drop (e - s) (tokens.drop s)

/-- The length of a window slice that stays within the text. -/
theorem windowSlice_length (tokens : List ℕ) (s e : ℕ) (he : e ≤ tokens.length) :
    (windowSlice tokens (s, e)).length = e - s := by
  simp only [windowSlice, List.length_take, List.length_drop]
  omega

/-- The round-trip core of C6: from any position inside the text, the first
loop window's tokens followed by every later window's post-overlap tokens
reconstruct the token list from that position. -/
theorem chunkWindows_reconstruct (maxT overlap : ℕ) (hmax : 0 < maxT)
    (hover : overlap < maxT) (tokens : List ℕ) (start : ℕ)
    (hs : start < tokens.length) :
    reconstruct tokens overlap (chunkWindows maxT overlap hmax tokens.length start)
      = tokens.drop start := by
  rw [chunkWindows, dif_pos hs]
  simp only
  split
  case isTrue he =>
    rw [reconstruct]
    simp only [List.map_nil, List.flatten_nil, List.append_nil]
    rw [windowSlice, he]
    rw [List.take_of_length_le (by simp)]
  case isFalse he =>
    have heq : min (start + maxT) tokens.length = start + maxT := by omega
    rw [heq] at he ⊢
    have hetotal : start + maxT < tokens.length := by omega
    have hns : nextStart overlap start (start + maxT) = start + maxT - overlap := by
      simp only [nextStart]
      split_ifs <;> omega
    rw [hns]
    have hnslt : start + maxT - overlap < tokens.length := by omega
    have IH := chunkWindows_reconstruct maxT overlap hmax hover tokens
      (start + maxT - overlap) hnslt
    obtain ⟨rest1, hcw1⟩ := chunkWindows_cons maxT overlap hmax tokens.length
      (start + maxT - overlap) hnslt
    rw [hcw1] at IH ⊢
    rw [reconstruct] at IH ⊢
    rw [List.map_cons, List.flatten_cons]
    have hov2 : overlap
        ≤ (windowSlice tokens (start + maxT - overlap,
            min (start + maxT - overlap + maxT) tokens.length)).length := by
      rw [windowSlice_length tokens _ _ (by omega)]
      omega
    have hdropIH := congrArg (List.drop overlap) IH
    rw [List.drop_append_of_le_length hov2] at hdropIH
    rw [List.drop_drop] at hdropIH
    have harith : start + maxT - overlap + overlap = start + maxT := by omega
    rw [harith] at hdropIH
    rw [hdropIH]
    exact windowSlice_append_drop tokens start (start + maxT) (by omega)
  termination_by tokens.length - start
  decreasing_by omega

/-- A `filterMap` that never drops is the corresponding `map`: the window
emission filter with no blank decodes. -/
theorem filterMap_windows_eq_map (decode : List ℕ → String) (tokens : List ℕ)
    (ws : List (ℕ × ℕ))
    (hblank : ∀ w ∈ ws, pyStrip (decode (windowSlice tokens w)) ≠ "") :
    ws.filterMap (fun w =>
        let t := pyStrip (decode (windowSlice tokens w))
        if t = "" then none else some t)
      = ws.map (fun w => pyStrip (decode (windowSlice tokens w))) := by
  induction ws with
  | nil => simp
  | cons w ws ih =>
    rw [List.filterMap_cons]
    simp only
    rw [if_neg (hblank w (by simp))]
    rw [ih (fun w2 hw2 => hblank w2 (by simp [hw2]))]
    rfl

/-- C6 — for a text longer than `max_tokens` (and a validated configuration),
concatenating the non-overlapping regions of the emitted windows — the first
window whole, every later window after the `overlap` tokens shared with its
predecessor — reconstructs the trimmed input's token sequence exactly; and
when no window decodes to blank text (so none is dropped), the returned
chunks are exactly the decoded texts of these windows, in order. -/
theorem c6_chunk_roundtrip (decode : List ℕ → String) (maxT overlap : ℕ)
    (hmax : 0 < maxT) (hover : overlap < maxT) (stripped : String)
    (tokens : List ℕ) (hstr : stripped ≠ "") (hlen : maxT < tokens.length)
    (hblank : ∀ w ∈ chunkWindows maxT overlap hmax tokens.length 0,
      pyStrip (decode (windowSlice tokens w)) ≠ "") :
    reconstruct tokens overlap (chunkWindows maxT overlap hmax tokens.length 0)
      = tokens
    ∧ chunk_text decode maxT overlap hmax stripped tokens
      = (chunkWindows maxT overlap hmax tokens.length 0).map
          (fun w => pyStrip (decode (windowSlice tokens w))) := by
  constructor
  · have h := chunkWindows_reconstruct maxT overlap hmax hover tokens 0
      (by omega)
    simpa using h
  · rw [chunk_text, if_neg hstr, if_neg (by omega)]
    exact filterMap_windows_eq_map decode tokens _ hblank

/-- Witness for C6: the 10-token text at `max_tokens = 4`,
`overlap_tokens = 1`, under a decoder that answers a fixed non-blank text. -/
theorem c6_chunk_roundtrip_witness :
    reconstruct (List.range 10) 1
        (chunkWindows 4 1 (by norm_num) (List.range 10).length 0)
      = List.range 10
    ∧ chunk_text const_decoder 4 1 (by norm_num) "x" (List.range 10)
      = (chunkWindows 4 1 (by norm_num) (List.range 10).length 0).map
          (fun w => pyStrip (const_decoder (windowSlice (List.range 10) w))) :=
  c6_chunk_roundtrip const_decoder 4 1 (by norm_num) (by norm_num) "x"
    (List.range 10) (by decide) (by simp)
    (fun w _ => by
      show pyStrip "t" ≠ ""
      decide)

/-- C7 counterexample — sorting by publish date ascending places the
missing-date result `r_missing` before the dated result `r_dated`, while the
claim requires missing dates after all known dates regardless of direction.
-/
theorem c7_missing_dates_sort_first_ascending :
    sort_results [r_dated, r_missing] "date_asc" = [r_missing, r_dated]
    ∧ r_missing.date_published = none
    ∧ r_dated.date_published = some 700000 := by
  decide

/-- Tuple comparisons on sort keys are total. -/
theorem pairLe_total (p q : ℕ × ℕ) : pairLe p q ∨ pairLe q p := by
  simp only [pairLe]
  omega

/-- Tuple comparisons on sort keys are transitive. -/
theorem pairLe_trans (p q r : ℕ × ℕ) : pairLe p q → pairLe q r → pairLe p r := by
  simp only [pairLe]
  omega

/-- C7 amended — `_sort_results` substitutes `date.min` for a missing publish
date, so missing dates sort together with the minimal date: in ascending
order every missing-date result precedes every dated result (missing dates
form a prefix), and in descending order every missing-date result follows
every dated result (missing dates form a suffix) — not "after all known dates
regardless of direction" as claimed. Document id is the tie-break within
equal dates (it is the second component of the sort key). The hypothesis
excludes the degenerate stored date `date.min` itself, which would tie with
the missing-date key. -/
theorem c7_missing_dates_minimal_key (rs : List SearchResult)
    (hd : ∀ r ∈ rs, ∀ d, r.date_published = some d → date_min < d) :
    (sort_results rs "date_asc").Pairwise missingDatesLeft
    ∧ (sort_results rs "date_desc").Pairwise missingDatesRight := by
  constructor
  · have hkey : sort_results rs "date_asc" = List.insertionSort ascRel rs := by
      rw [sort_results, if_neg (by decide), if_neg (by decide)]
    rw [hkey]
    have hsorted : List.Sorted ascRel (List.insertionSort ascRel rs) :=
      @List.sorted_insertionSort _ ascRel _
        ⟨fun a b => pairLe_total (sortValue a) (sortValue b)⟩
        ⟨fun a _ c hab hbc => pairLe_trans (sortValue a) _ (sortValue c) hab hbc⟩
        rs
    have hperm := List.perm_insertionSort ascRel rs
    refine List.Pairwise.imp_of_mem ?_ hsorted
    intro a b ha hb hr hbnone
    cases hda : a.date_published with
    | none => rfl
    | some d =>
      exfalso
      have hdm := hd a (hperm.mem_iff.mp ha) d hda
      simp only [ascRel, pairLe, sortValue, hda, hbnone, Option.getD_some,
        Option.getD_none, date_min] at hr
      omega
  · have hkey : sort_results rs "date_desc" = List.insertionSort descRel rs := by
      rw [sort_results, if_neg (by decide), if_pos rfl]
    rw [hkey]
    have hsorted : List.Sorted descRel (List.insertionSort descRel rs) :=
      @List.sorted_insertionSort _ descRel _
        ⟨fun a b => pairLe_total (sortValue b) (sortValue a)⟩
        ⟨fun a _ c hab hbc => pairLe_trans (sortValue c) _ (sortValue a) hbc hab⟩
        rs
    have hperm := List.perm_insertionSort descRel rs
    refine List.Pairwise.imp_of_mem ?_ hsorted
    intro a b ha hb hr hanone
    cases hdb : b.date_published with
    | none => rfl
    | some d =>
      exfalso
      have hdm := hd b (hperm.mem_iff.mp hb) d hdb
      simp only [descRel, pairLe, sortValue, hdb, hanone, Option.getD_some,
        Option.getD_none, date_min] at hr
      omega

/-- Witness for C7 (amended) on a dated result and an undated one. -/
theorem c7_missing_dates_minimal_key_witness :
    (sort_results [r_dated, r_missing] "date_asc").Pairwise missingDatesLeft
    ∧ (sort_results [r_dated, r_missing] "date_desc").Pairwise
        missingDatesRight :=
  c7_missing_dates_minimal_key [r_dated, r_missing] (by
    intro r hr d hd
    rcases List.mem_cons.mp hr with rfl | hr2
    · simp [r_dated] at hd
      simp only [date_min]
      omega
    · rcases List.mem_cons.mp hr2 with rfl | hr3
      · simp [r_missing] at hd
      · simp at hr3)

/-- C9 counterexample — the file report's `Min cosine similarity` header
figure for a result at distance 3/2 is the unclamped value `-(1/2)`,
a negative reported similarity, refuting the claim that every displayed or
reported similarity is `1 - d` clamped to `[0, 1]`. -/
theorem c9_report_header_similarity_negative :
    report_min_similarity [far_output] = -(1 / 2)
    ∧ report_min_similarity [far_output] < 0 := by
  constructor
  · norm_num [report_min_similarity, pyMin, report_cosine_scores, far_output]
  · norm_num [report_min_similarity, pyMin, report_cosine_scores, far_output]

/-- C9 amended — the web serializer's similarity is `1 - distance` clamped to
`[0, 1]` (never negative, never above 1) for every distance; the file
report's header max/min figures are the unclamped `1 - distance` values and
can leave `[0, 1]` (see the counterexample). -/
theorem c9_web_similarity_clamped (d : ℚ) :
    similarity d = max 0 (min 1 (1 - d))
    ∧ 0 ≤ similarity d ∧ similarity d ≤ 1 := by
  unfold similarity
  refine ⟨?_, ?_, ?_⟩ <;>
    · simp only [max_def, min_def]
      split_ifs <;> linarith

/-- C10 — with an OpenAI API key configured in the settings and no explicit
`model`, `batch_size` or `max_words` arguments, `LLMRelevanceJudge.__init__`
always raises AttributeError on `SETTINGS.openai_relevance_model`: the
`Settings` dataclass (config.py) defines no such field (nor
`relevance_batch_size` / `relevance_max_words`), so every default-configured
advanced search fails before any provider call. -/
theorem c10_default_judge_constructor_raises (s : Settings) (k : String)
    (hk : s.openai_api_key = some k) (hk2 : k ≠ "") :
    LLMRelevanceJudge.init s none none none none
      = Except.error (PyError.attributeError "openai_relevance_model") := by
  simp [LLMRelevanceJudge.init, optStrFalsy, orAttrStr, Settings.getattr, hk, hk2]

/-- Witness for C10 at the config.py defaults plus a configured key. -/
theorem c10_default_judge_constructor_raises_witness :
    test_settings.openai_api_key = some "sk-test"
    ∧ LLMRelevanceJudge.init test_settings none none none none
        = Except.error (PyError.attributeError "openai_relevance_model") :=
  ⟨rfl, c10_default_judge_constructor_raises test_settings "sk-test" rfl (by decide)⟩

end WhScraper
